import Mathlib

set_option maxHeartbeats 1000000

/-! Shallow embedding of the jarvis metadata pipeline:
the deduplicator (src/utils/deduplicator.py), the fetch orchestrator
(src/data_fetcher.py), the semantic filter (src/utils/metadata_filter.py),
the full-text fetcher (src/full_text_fetcher.py) and the ingestion
sanitizer (src/ingest.py).  Filesystem and network effects are passed in
as explicit oracles; Python `hash` is an abstract `String → Int`
parameter. -/

/-! ### Python string primitives, modelled structurally so the kernel can
evaluate them.  `replFuel` is Python `str.replace` (all non-overlapping
occurrences, scanned left to right); fuel is the length of the scanned
list, enough because every step consumes at least one character when the
pattern is non-empty (all patterns in this file are non-empty). -/

def replFuel (pat rep : List Char) : Nat → List Char → List Char
  | 0, l => l
  | _ + 1, [] => []
  | fuel + 1, c :: rest =>
    if pat.isPrefixOf (c :: rest) && pat.length != 0 then
      rep ++ replFuel pat rep fuel ((c :: rest).drop pat.length)
    else
      c :: replFuel pat rep fuel rest

/-- Python `s.replace(pat, rep)` for a non-empty pattern `pat`. -/
def pyReplace (s pat rep : String) : String :=
  String.mk (replFuel pat.toList rep.toList s.toList.length s.toList)

/-- Python `s.strip()`: remove leading and trailing whitespace. -/
def pyStrip (s : String) : String :=
  String.mk (((s.toList.dropWhile Char.isWhitespace).reverse.dropWhile Char.isWhitespace).reverse)

/-! ### Deduplicator (src/utils/deduplicator.py, `deduplicate_metadata`) -/

/-- A metadata record as read from a per-source JSON file: the six
identifier fields checked by the deduplicator, plus the `title` used by
the spec scenarios and an `extra` assoc list standing for every other
key-value pair, which the deduplicator copies through untouched.  A
missing field and an empty string are encoded alike as `""`, faithful
because the source only tests `entry.get(field)` for truthiness, under
which `None` and `""` behave identically. -/
structure DEntry where
  doi : String := ""
  pmid : String := ""
  paperId : String := ""
  pdf_url : String := ""
  id : String := ""
  link : String := ""
  title : String := ""
  extra : List (String × String) := []
  deriving DecidableEq

/-- URL normalisation applied to a winning `link`/`pdf_url` value
(deduplicator.py line 79):
`value.replace("http://", "").replace("https://", "").replace("/", "_")`.
Each `replace` removes every occurrence, exactly as Python `str.replace`
does. -/
def normalizeUrl (v : String) : String :=
  pyReplace (pyReplace (pyReplace v "http://" "") "https://" "") "/" "_"

/-- The prioritized identifier computation (deduplicator.py lines 74-81):
the first field among `doi, pmid, paperId, pdf_url, id, link` whose raw
value is truthy wins; a winning `link`/`pdf_url` value is normalised
after winning.  `none` when every field is falsy (the source leaves
`identifier = None`). -/
def identifier (e : DEntry) : Option String :=
  if e.doi ≠ "" then some e.doi
  else if e.pmid ≠ "" then some e.pmid
  else if e.paperId ≠ "" then some e.paperId
  else if e.pdf_url ≠ "" then some (normalizeUrl e.pdf_url)
  else if e.id ≠ "" then some e.id
  else if e.link ≠ "" then some (normalizeUrl e.link)
  else none

/-- The hash recorded in `seen_identifiers`: `hash(str(identifier))`
guarded by `if identifier:` (deduplicator.py lines 82-83); an entry whose
computed identifier is the empty string is falsy there, gets no hash and
is skipped with the no-identifier warning.  `Hash` abstracts Python's
`hash`. -/
def idHash (Hash : String → Int) (e : DEntry) : Option Int :=
  match identifier e with
  | some v => if v = "" then none else some (Hash v)
  | none => none

/-- The per-entry loop of `deduplicate_metadata` (lines 73-91), as a fold
over the stream of entries in enumeration order, threading the one
`seen_identifiers` set (represented by the list of hashes added so far). -/
def dedupeAux (Hash : String → Int) (seen : List Int) : List DEntry → List DEntry
  | [] => []
  | e :: rest =>
    match idHash Hash e with
    | none => dedupeAux Hash seen rest
    | some h =>
      if h ∈ seen then dedupeAux Hash seen rest
      else e :: dedupeAux Hash (h :: seen) rest

/-- One source subdirectory of `data/<project>`: its JSON files in listing
order.  A file whose `json.load` failed, or whose top-level value is
neither a list nor a dict, is `none` (the source logs and skips it); a
single dict is a one-entry list. -/
structure SourceDir where
  files : List (Option (List DEntry))
  deriving DecidableEq

/-- The entry enumeration order of `deduplicate_metadata`: source
subdirectories in listing order, JSON files in listing order inside each,
entries in order inside each file; unreadable files contribute nothing. -/
def entryStream (dirs : List SourceDir) : List DEntry :=
  (dirs.map (fun d => (d.files.map (fun f => f.getD [])).flatten)).flatten

/-- Pure core of `deduplicate_metadata`: the nested source/file/entry
loops with the single shared `seen_identifiers` set equal a single fold
over the flattened enumeration.  Directory listing, JSON decoding and the
final write of `deduplicated/metadata.json` are I/O outside the model. -/
def deduplicate_metadata (Hash : String → Int) (dirs : List SourceDir) : List DEntry :=
  dedupeAux Hash [] (entryStream dirs)

theorem dedupeAux_cons_none (Hash : String → Int) (seen : List Int) (e : DEntry)
    (rest : List DEntry) (h : idHash Hash e = none) :
    dedupeAux Hash seen (e :: rest) = dedupeAux Hash seen rest := by
  rw [dedupeAux, h]

theorem dedupeAux_cons_dup (Hash : String → Int) (seen : List Int) (e : DEntry)
    (rest : List DEntry) (hv : Int) (h : idHash Hash e = some hv) (hs : hv ∈ seen) :
    dedupeAux Hash seen (e :: rest) = dedupeAux Hash seen rest := by
  rw [dedupeAux, h]
  exact if_pos hs

theorem dedupeAux_cons_new (Hash : String → Int) (seen : List Int) (e : DEntry)
    (rest : List DEntry) (hv : Int) (h : idHash Hash e = some hv) (hs : hv ∉ seen) :
    dedupeAux Hash seen (e :: rest) = e :: dedupeAux Hash (hv :: seen) rest := by
  rw [dedupeAux, h]
  exact if_neg hs

theorem dedupeAux_sublist (Hash : String → Int) (seen : List Int) (l : List DEntry) :
    (dedupeAux Hash seen l).Sublist l := by
  induction l generalizing seen with
  | nil => simp [dedupeAux]
  | cons e rest ih =>
    cases h : idHash Hash e with
    | none =>
      rw [dedupeAux_cons_none Hash seen e rest h]
      exact (ih seen).cons e
    | some hv =>
      by_cases hs : hv ∈ seen
      · rw [dedupeAux_cons_dup Hash seen e rest hv h hs]
        exact (ih seen).cons e
      · rw [dedupeAux_cons_new Hash seen e rest hv h hs]
        exact (ih (hv :: seen)).cons₂ e

theorem dedupeAux_mem_spec (Hash : String → Int) (seen : List Int) (l : List DEntry)
    (e : DEntry) (he : e ∈ dedupeAux Hash seen l) :
    ∃ h, idHash Hash e = some h ∧ h ∉ seen ∧
      l.find? (fun x => decide (idHash Hash x = some h)) = some e := by
  induction l generalizing seen with
  | nil => simp [dedupeAux] at he
  | cons a rest ih =>
    cases ha : idHash Hash a with
    | none =>
      rw [dedupeAux_cons_none Hash seen a rest ha] at he
      obtain ⟨h, h1, h2, h3⟩ := ih seen he
      refine ⟨h, h1, h2, ?_⟩
      rw [List.find?_cons]
      have : (decide (idHash Hash a = some h)) = false := by simp [ha]
      rw [this]
      exact h3
    | some hva =>
      by_cases hs : hva ∈ seen
      · rw [dedupeAux_cons_dup Hash seen a rest hva ha hs] at he
        obtain ⟨h, h1, h2, h3⟩ := ih seen he
        refine ⟨h, h1, h2, ?_⟩
        rw [List.find?_cons]
        have hne : hva ≠ h := fun hEq => h2 (hEq ▸ hs)
        have : (decide (idHash Hash a = some h)) = false := by
          simp [ha, hne]
        rw [this]
        exact h3
      · rw [dedupeAux_cons_new Hash seen a rest hva ha hs] at he
        rcases List.mem_cons.mp he with hEq | hMem
        · subst hEq
          refine ⟨hva, ha, hs, ?_⟩
          rw [List.find?_cons]
          have : (decide (idHash Hash e = some hva)) = true := by simp [ha]
          rw [this]
        · obtain ⟨h, h1, h2, h3⟩ := ih (hva :: seen) hMem
          have h2' : h ∉ seen := fun hIn => h2 (List.mem_cons_of_mem _ hIn)
          have hne : hva ≠ h := fun hEq => h2 (hEq ▸ List.mem_cons_self _ _)
          refine ⟨h, h1, h2', ?_⟩
          rw [List.find?_cons]
          have : (decide (idHash Hash a = some h)) = false := by simp [ha, hne]
          rw [this]
          exact h3

theorem dedupeAux_cover (Hash : String → Int) (seen : List Int) (l : List DEntry)
    (h : Int) (hs : h ∉ seen) (e : DEntry) (hel : e ∈ l) (hid : idHash Hash e = some h) :
    ∃ e2 ∈ dedupeAux Hash seen l, idHash Hash e2 = some h := by
  induction l generalizing seen with
  | nil => simp at hel
  | cons a rest ih =>
    cases ha : idHash Hash a with
    | none =>
      rw [dedupeAux_cons_none Hash seen a rest ha]
      rcases List.mem_cons.mp hel with hEq | hMem
      · subst hEq; rw [ha] at hid; exact absurd hid (by simp)
      · exact ih seen hs hMem
    | some hva =>
      by_cases hsv : hva ∈ seen
      · rw [dedupeAux_cons_dup Hash seen a rest hva ha hsv]
        rcases List.mem_cons.mp hel with hEq | hMem
        · subst hEq; rw [ha] at hid
          exact absurd hs (by rw [Option.some_inj] at hid; rw [← hid]; exact fun c => c hsv)
        · exact ih seen hs hMem
      · rw [dedupeAux_cons_new Hash seen a rest hva ha hsv]
        by_cases hEqh : hva = h
        · exact ⟨a, List.mem_cons_self _ _, by rw [ha, hEqh]⟩
        · rcases List.mem_cons.mp hel with hEq | hMem
          · subst hEq; rw [ha] at hid
            exact absurd (Option.some_inj.mp hid) hEqh
          · have hs' : h ∉ hva :: seen := by
              intro hc
              rcases List.mem_cons.mp hc with hc1 | hc2
              · exact hEqh hc1.symm
              · exact hs hc2
            obtain ⟨e2, he2, hid2⟩ := ih (hva :: seen) hs' hMem
            exact ⟨e2, List.mem_cons_of_mem _ he2, hid2⟩

theorem dedupeAux_hashes_nodup (Hash : String → Int) (seen : List Int) (l : List DEntry) :
    ((dedupeAux Hash seen l).filterMap (idHash Hash)).Nodup ∧
      ∀ h ∈ (dedupeAux Hash seen l).filterMap (idHash Hash), h ∉ seen := by
  induction l generalizing seen with
  | nil => simp [dedupeAux]
  | cons a rest ih =>
    cases ha : idHash Hash a with
    | none =>
      rw [dedupeAux_cons_none Hash seen a rest ha]
      exact ih seen
    | some hva =>
      by_cases hs : hva ∈ seen
      · rw [dedupeAux_cons_dup Hash seen a rest hva ha hs]
        exact ih seen
      · rw [dedupeAux_cons_new Hash seen a rest hva ha hs]
        obtain ⟨ihn, ihs⟩ := ih (hva :: seen)
        rw [List.filterMap_cons]
        rw [ha]
        constructor
        · refine List.Nodup.cons ?_ ihn
          intro hc
          exact (ihs hva hc) (List.mem_cons_self _ _)
        · intro h hh
          rcases List.mem_cons.mp hh with hEq | hMem
          · exact hEq ▸ hs
          · exact fun hc => (ihs h hMem) (List.mem_cons_of_mem _ hc)

theorem dedupeAux_fixed (Hash : String → Int) (seen : List Int) (l : List DEntry)
    (hall : ∀ e ∈ l, ∃ h, idHash Hash e = some h ∧ h ∉ seen)
    (hnd : (l.filterMap (idHash Hash)).Nodup) :
    dedupeAux Hash seen l = l := by
  induction l generalizing seen with
  | nil => simp [dedupeAux]
  | cons a rest ih =>
    obtain ⟨ha, hida, hnsa⟩ := hall a (List.mem_cons_self _ _)
    rw [dedupeAux_cons_new Hash seen a rest ha hida hnsa]
    congr 1
    apply ih
    · intro e he
      obtain ⟨h, hid, hns⟩ := hall e (List.mem_cons_of_mem _ he)
      refine ⟨h, hid, ?_⟩
      intro hc
      rcases List.mem_cons.mp hc with h1 | h2
      · subst h1
        rw [List.filterMap_cons, hida] at hnd
        have hin : h ∈ rest.filterMap (idHash Hash) := List.mem_filterMap.mpr ⟨e, he, hid⟩
        exact (List.nodup_cons.mp hnd).1 hin
      · exact hns h2
    · rw [List.filterMap_cons, hida] at hnd
      exact (List.nodup_cons.mp hnd).2

/-- C1: for every collection of per-source record files of one project,
the deduplicator output is a sub-sequence of the enumeration stream whose
identifier hashes are pairwise distinct, a hash occurs in the output
exactly when some streamed record resolves to it, and the record kept for
each hash is the first record of the stream resolving to it; every later
record with an already-seen hash is dropped. -/
theorem C1_dedup_unique_first_kept (Hash : String → Int) (dirs : List SourceDir) :
    (deduplicate_metadata Hash dirs).Sublist (entryStream dirs) ∧
    ((deduplicate_metadata Hash dirs).filterMap (idHash Hash)).Nodup ∧
    (∀ h : Int, (∃ e ∈ entryStream dirs, idHash Hash e = some h) ↔
      ∃ e ∈ deduplicate_metadata Hash dirs, idHash Hash e = some h) ∧
    (∀ e ∈ deduplicate_metadata Hash dirs, ∀ h : Int, idHash Hash e = some h →
      (entryStream dirs).find? (fun x => decide (idHash Hash x = some h)) = some e) := by
  refine ⟨dedupeAux_sublist Hash [] _, (dedupeAux_hashes_nodup Hash [] _).1, ?_, ?_⟩
  · intro h
    constructor
    · rintro ⟨e, hel, hid⟩
      exact dedupeAux_cover Hash [] _ h (by simp) e hel hid
    · rintro ⟨e, hed, hid⟩
      exact ⟨e, (dedupeAux_sublist Hash [] _).subset hed, hid⟩
  · intro e hed h hid
    obtain ⟨h2, hid2, _, hfind⟩ := dedupeAux_mem_spec Hash [] _ e hed
    have hEq : h2 = h := by
      rw [hid] at hid2
      exact (Option.some_inj.mp hid2).symm
    rw [← hEq]
    exact hfind

/-- Concrete Hash standing in for Python `hash` in witnesses. -/
def hashLen : String → Int := fun s => (s.length : Int)

/-- Scenario record from the spec: source directory `a`. -/
def raT1 : DEntry := { doi := "10.1/x", title := "T1" }

/-- Scenario record from the spec: source directory `b`, same DOI. -/
def rbT1 : DEntry := { doi := "10.1/x", title := "T1-dup" }

/-- Scenario project layout: two source directories with one file each. -/
def dirsC1 : List SourceDir := [⟨[some [raT1]]⟩, ⟨[some [rbT1]]⟩]

/-- Witness for C1 at the spec scenario: the record kept for the shared
DOI hash is the first one of the enumeration, `raT1`. -/
theorem C1_dedup_unique_first_kept_witness :
    ∃ h, idHash hashLen raT1 = some h ∧
      (entryStream dirsC1).find? (fun x => decide (idHash hashLen x = some h)) = some raT1 :=
  ⟨6, by decide,
    (C1_dedup_unique_first_kept hashLen dirsC1).2.2.2 raT1 (by decide) 6 (by decide)⟩

/-- The all-fields-empty record used in the C5 witness. -/
def emptyEntry : DEntry := {}

/-- C5: a record lacking a truthy value in all six identifier fields never
appears in the deduplicator output, and re-running the deduplication merge
on its own output is the identity. -/
theorem C5_unidentified_excluded_and_idempotent (Hash : String → Int) (dirs : List SourceDir) :
    (∀ e : DEntry, e.doi = "" → e.pmid = "" → e.paperId = "" → e.pdf_url = "" →
      e.id = "" → e.link = "" → e ∉ deduplicate_metadata Hash dirs) ∧
    dedupeAux Hash [] (deduplicate_metadata Hash dirs) = deduplicate_metadata Hash dirs := by
  constructor
  · intro e h1 h2 h3 h4 h5 h6 hmem
    obtain ⟨h, hid, _, _⟩ := dedupeAux_mem_spec Hash [] _ e hmem
    have hidn : idHash Hash e = none := by
      simp [idHash, identifier, h1, h2, h3, h4, h5, h6]
    rw [hidn] at hid
    exact Option.noConfusion hid
  · apply dedupeAux_fixed
    · intro e he
      obtain ⟨h, hid, _, _⟩ := dedupeAux_mem_spec Hash [] _ e he
      exact ⟨h, hid, by simp⟩
    · exact (dedupeAux_hashes_nodup Hash [] _).1

/-- Witness for C5 at the spec scenario: the empty record is not in the
output and the merge is idempotent there. -/
theorem C5_unidentified_excluded_and_idempotent_witness :
    emptyEntry ∉ deduplicate_metadata hashLen dirsC1 ∧
      dedupeAux hashLen [] (deduplicate_metadata hashLen dirsC1) =
        deduplicate_metadata hashLen dirsC1 :=
  ⟨(C5_unidentified_excluded_and_idempotent hashLen dirsC1).1 emptyEntry
      rfl rfl rfl rfl rfl rfl,
    (C5_unidentified_excluded_and_idempotent hashLen dirsC1).2⟩

/-! ### Fetch orchestrator (src/data_fetcher.py, `fetch_all`) -/

/-- Python dict assignment `d[k] = v` on an association list: replace the
value of an existing key in place (keeping its position, as dicts keep
insertion order), else append the new pair. -/
def upsert {β : Type} (k : String) (v : β) : List (String × β) → List (String × β)
  | [] => [(k, v)]
  | (k2, v2) :: rest => if k2 = k then (k, v) :: rest else (k2, v2) :: upsert k v rest

/-- One per-source entry of `fetch_stats`: the recorded `status`, `count`
and optional `error` message ("success" entries carry no error key,
modelled as `none`). -/
structure Stat where
  status : String
  count : Nat
  error : Option String
  deriving DecidableEq

/-- The source names registered in `FETCHER_MAP` (data_fetcher.py lines
31-37). -/
def fetcherNames : List String := ["pubmed", "websearch", "blog", "semanticscholar", "arxiv"]

/-- One iteration of the source loop of `fetch_all` (lines 88-120) acting
on the accumulated `(results, fetch_stats)`.  `fetchOf s` abstracts
`fetcher(processed_query, project_name)` for the registered source `s`:
query processing is a pure per-source string rewrite, so its effect is
folded into the oracle; `.error msg` is a raised exception caught by the
`except` branch, `.ok l` a normal return (a falsy `None`/empty return
still records status "success" with count 0 and extends nothing). -/
def fetchStep {α : Type} (fetchOf : String → Except String (List α))
    (acc : List α × List (String × Stat)) (s : String) : List α × List (String × Stat) :=
  if s ∈ fetcherNames then
    match fetchOf s with
    | .ok l => (acc.1 ++ l, upsert s ⟨"success", l.length, none⟩ acc.2)
    | .error msg => (acc.1, upsert s ⟨"failed", 0, some msg⟩ acc.2)
  else
    (acc.1, upsert s ⟨"skipped", 0, some "Unknown source"⟩ acc.2)

/-- The whole source loop of `fetch_all` over the `used_sources` list,
starting from empty `results` and `fetch_stats`. -/
def fetchSources {α : Type} (fetchOf : String → Except String (List α))
    (used : List String) : List α × List (String × Stat) :=
  used.foldl (fetchStep fetchOf) ([], [])

/-- The metadata-aggregation core of `fetch_all` (data_fetcher.py lines
84-120): `used_sources = sources or list(FETCHER_MAP.keys())` — a falsy
`sources` (absent or the empty list) selects every registered source —
then the per-source loop.  The later deduplication/filter/fulltext calls
are the separately modelled stages. -/
def fetch_all {α : Type} (fetchOf : String → Except String (List α))
    (sources : Option (List String)) : List α × List (String × Stat) :=
  fetchSources fetchOf
    (match sources with
      | some (s :: rest) => s :: rest
      | _ => fetcherNames)

theorem upsert_lookup_self {β : Type} (k : String) (v : β) (l : List (String × β)) :
    (upsert k v l).lookup k = some v := by
  induction l with
  | nil => simp [upsert, List.lookup]
  | cons p rest ih =>
    obtain ⟨k2, v2⟩ := p
    rw [upsert]
    by_cases h : k2 = k
    · rw [if_pos h]
      simp [List.lookup]
    · rw [if_neg h]
      rw [List.lookup]
      have : (k == k2) = false := by
        simp only [beq_eq_false_iff_ne, ne_eq]
        exact fun hc => h hc.symm
      rw [this]
      exact ih

theorem upsert_lookup_other {β : Type} (k k2 : String) (v : β) (l : List (String × β))
    (h : k2 ≠ k) : (upsert k v l).lookup k2 = l.lookup k2 := by
  induction l with
  | nil =>
    simp only [upsert, List.lookup]
    have : (k2 == k) = false := by simp [h]
    rw [this]
  | cons p rest ih =>
    obtain ⟨k3, v3⟩ := p
    rw [upsert]
    by_cases h3 : k3 = k
    · rw [if_pos h3]
      subst h3
      rw [List.lookup, List.lookup]
      have : (k2 == k3) = false := by simp [h]
      rw [this]
    · rw [if_neg h3]
      rw [List.lookup, List.lookup]
      cases hbe : (k2 == k3) with
      | true => rfl
      | false => exact ih

/-- The list of records a source contributes to the aggregate: its
returned list when it is registered and its fetch succeeds, nothing
otherwise. -/
def contributed {α : Type} (fetchOf : String → Except String (List α)) (s : String) : List α :=
  if s ∈ fetcherNames then
    match fetchOf s with
    | .ok l => l
    | .error _ => []
  else []

theorem fetchLoop_results {α : Type} (fetchOf : String → Except String (List α))
    (srcs : List String) (acc : List α × List (String × Stat)) :
    (srcs.foldl (fetchStep fetchOf) acc).1 = acc.1 ++ (srcs.map (contributed fetchOf)).flatten := by
  induction srcs generalizing acc with
  | nil => simp
  | cons a rest ih =>
    rw [List.foldl_cons, ih]
    have hstep : (fetchStep fetchOf acc a).1 = acc.1 ++ contributed fetchOf a := by
      rw [fetchStep, contributed]
      by_cases h : a ∈ fetcherNames
      · rw [if_pos h, if_pos h]
        cases fetchOf a with
        | ok l => rfl
        | error msg => simp
      · rw [if_neg h, if_neg h]
        simp
    rw [hstep]
    simp

theorem fetchLoop_stats_skip {α : Type} (fetchOf : String → Except String (List α))
    (srcs : List String) (acc : List α × List (String × Stat)) (s : String) (hs : s ∉ srcs) :
    ((srcs.foldl (fetchStep fetchOf) acc).2).lookup s = acc.2.lookup s := by
  induction srcs generalizing acc with
  | nil => rfl
  | cons a rest ih =>
    have hne : s ≠ a := fun hEq => hs (hEq ▸ List.mem_cons_self _ _)
    have hrest : s ∉ rest := fun hc => hs (List.mem_cons_of_mem _ hc)
    rw [List.foldl_cons, ih _ hrest]
    rw [fetchStep]
    by_cases h : a ∈ fetcherNames
    · rw [if_pos h]
      cases fetchOf a with
      | ok l => exact upsert_lookup_other a s _ acc.2 hne
      | error msg => exact upsert_lookup_other a s _ acc.2 hne
    · rw [if_neg h]
      exact upsert_lookup_other a s _ acc.2 hne

/-- The per-source stat `fetch_all` records, by the three cases of the
loop body. -/
def expectedStat {α : Type} (fetchOf : String → Except String (List α)) (s : String) : Stat :=
  if s ∈ fetcherNames then
    match fetchOf s with
    | .ok l => ⟨"success", l.length, none⟩
    | .error msg => ⟨"failed", 0, some msg⟩
  else ⟨"skipped", 0, some "Unknown source"⟩

theorem fetchLoop_stats {α : Type} (fetchOf : String → Except String (List α))
    (srcs : List String) (acc : List α × List (String × Stat)) (s : String) (hs : s ∈ srcs) :
    ((srcs.foldl (fetchStep fetchOf) acc).2).lookup s = some (expectedStat fetchOf s) := by
  induction srcs generalizing acc with
  | nil => simp at hs
  | cons a rest ih =>
    rw [List.foldl_cons]
    by_cases hr : s ∈ rest
    · exact ih _ hr
    · have hsa : s = a := by
        rcases List.mem_cons.mp hs with h1 | h2
        · exact h1
        · exact absurd h2 hr
      subst hsa
      rw [fetchLoop_stats_skip fetchOf rest _ s hr]
      rw [fetchStep, expectedStat]
      by_cases h : s ∈ fetcherNames
      · rw [if_pos h, if_pos h]
        cases fetchOf s with
        | ok l => exact upsert_lookup_self s _ acc.2
        | error msg => exact upsert_lookup_self s _ acc.2
      · rw [if_neg h, if_neg h]
        exact upsert_lookup_self s _ acc.2

/-- C2: for every run of the orchestrator loop over a list of source
names, an unregistered name is recorded as skipped with count 0, a source
whose fetcher raises is recorded as failed with the error message, a
source whose fetcher returns is recorded as success with its count — no
outcome aborts the processing of the other sources, whose stats and
records appear regardless — and the aggregated raw list is exactly the
concatenation of the record lists of the sources whose fetch succeeded;
a non-empty explicit source list is used as given by `fetch_all`. -/
theorem C2_fetch_failure_isolation {α : Type} (fetchOf : String → Except String (List α))
    (srcs : List String) :
    (∀ s ∈ srcs, s ∉ fetcherNames →
      ((fetchSources fetchOf srcs).2).lookup s = some ⟨"skipped", 0, some "Unknown source"⟩) ∧
    (∀ s ∈ srcs, s ∈ fetcherNames → ∀ msg, fetchOf s = .error msg →
      ((fetchSources fetchOf srcs).2).lookup s = some ⟨"failed", 0, some msg⟩) ∧
    (∀ s ∈ srcs, s ∈ fetcherNames → ∀ l, fetchOf s = .ok l →
      ((fetchSources fetchOf srcs).2).lookup s = some ⟨"success", l.length, none⟩) ∧
    (fetchSources fetchOf srcs).1 = (srcs.map (contributed fetchOf)).flatten ∧
    (srcs ≠ [] → fetch_all fetchOf (some srcs) = fetchSources fetchOf srcs) := by
  refine ⟨?_, ?_, ?_, ?_, ?_⟩
  · intro s hs hnm
    rw [fetchSources, fetchLoop_stats fetchOf srcs _ s hs, expectedStat, if_neg hnm]
  · intro s hs hm msg hf
    rw [fetchSources, fetchLoop_stats fetchOf srcs _ s hs, expectedStat, if_pos hm, hf]
  · intro s hs hm l hf
    rw [fetchSources, fetchLoop_stats fetchOf srcs _ s hs, expectedStat, if_pos hm, hf]
  · rw [fetchSources, fetchLoop_results]
    rfl
  · intro hne
    cases srcs with
    | nil => exact absurd rfl hne
    | cons a rest => rfl

/-- The oracle of the spec scenario: registered source `pubmed` raises a
network exception, registered source `arxiv` returns three records. -/
def fetchOfW : String → Except String (List String) :=
  fun s =>
    if s = "pubmed" then .error "network down"
    else if s = "arxiv" then .ok ["r1", "r2", "r3"]
    else .ok []

/-- Witness for C2 at the spec scenario `["pubmed", "unknown", "arxiv"]`:
pubmed failed with its message, unknown skipped with count 0, arxiv
success with count 3, and the aggregate holds exactly arxiv's 3 records. -/
theorem C2_fetch_failure_isolation_witness :
    ((fetchSources fetchOfW ["pubmed", "unknown", "arxiv"]).2).lookup "pubmed" =
        some ⟨"failed", 0, some "network down"⟩ ∧
      ((fetchSources fetchOfW ["pubmed", "unknown", "arxiv"]).2).lookup "unknown" =
        some ⟨"skipped", 0, some "Unknown source"⟩ ∧
      ((fetchSources fetchOfW ["pubmed", "unknown", "arxiv"]).2).lookup "arxiv" =
        some ⟨"success", 3, none⟩ ∧
      (fetchSources fetchOfW ["pubmed", "unknown", "arxiv"]).1 = ["r1", "r2", "r3"] := by
  have T := C2_fetch_failure_isolation fetchOfW ["pubmed", "unknown", "arxiv"]
  refine ⟨T.2.1 "pubmed" (by decide) (by decide) "network down" rfl,
    T.1 "unknown" (by decide) (by decide),
    T.2.2.1 "arxiv" (by decide) (by decide) ["r1", "r2", "r3"] rfl, ?_⟩
  rw [T.2.2.2.1]
  rfl

/-- C10: calling the orchestrator with `sources = []` behaves identically
to passing no sources argument — the empty list is falsy in
`sources or list(FETCHER_MAP.keys())`, so every registered source is
queried. -/
theorem C10_empty_sources_means_all {α : Type} (fetchOf : String → Except String (List α)) :
    fetch_all fetchOf (some []) = fetch_all fetchOf none := rfl

/-! ### Semantic filter (src/utils/metadata_filter.py, `filter_metadata_semantic`) -/

/-- A dict value in a filter-stage record: the source stores strings in
the text fields and writes the float similarity score; scores are
modelled over `ℚ`.  A non-string value in a field the source concatenates
or regex-matches would raise a `TypeError` there and is outside the
claims' scope. -/
inductive FVal where
  | str : String → FVal
  | num : ℚ → FVal
  deriving DecidableEq

/-- A metadata record at the filter stage: a dict in insertion order. -/
abbrev FEntry := List (String × FVal)

/-- Python `entry.get(k, "")` for the string-valued fields the filter
reads (`title`, `summary`, `published`). -/
def getStr (e : FEntry) (k : String) : String :=
  match e.lookup k with
  | some (.str v) => v
  | _ => ""

/-- Python `re.match(r"(\d{4})", pub)` followed by `int(group(1))`:
anchored at position 0, it matches exactly when the first four characters
are digits, whatever follows them. -/
def parseYear (s : String) : Option Nat :=
  match s.toList with
  | c1 :: c2 :: c3 :: c4 :: _ =>
    if c1.isDigit && c2.isDigit && c3.isDigit && c4.isDigit then
      some ((c1.toNat - 48) * 1000 + (c2.toNat - 48) * 100 + (c3.toNat - 48) * 10 + (c4.toNat - 48))
    else none
  | _ => none

/-- The `continue` condition of the year filter (metadata_filter.py lines
46-50).  The guard is Python `if min_year:`, which is falsy both for
`None` and for `0`, so `min_year = 0` skips the year filter entirely;
otherwise a record is rejected when no leading four-digit year parses or
the parsed year is below `min_year`. -/
def yearRejects (minYear : Option Int) (e : FEntry) : Bool :=
  match minYear with
  | none => false
  | some m =>
    if m = 0 then false
    else
      match parseYear (getStr e "published") with
      | none => true
      | some y => decide ((y : Int) < m)

/-- The text the similarity score is computed on:
`entry.get("title", "") + " " + entry.get("summary", "")`. -/
def textOf (e : FEntry) : String := getStr e "title" ++ " " ++ getStr e "summary"

/-- The record loop of `filter_metadata_semantic` (lines 43-60).  `sim t`
abstracts `util.pytorch_cos_sim(query_emb, model.encode(t)).item()` for
the query and model fixed by the call — a cosine similarity, which can be
anywhere in [-1, 1].  A kept record gets `entry["semantic_similarity"] =
score` before being appended; rejected records are left unmodified. -/
def filter_metadata_semantic (sim : String → ℚ) (minYear : Option Int) (minSim : ℚ) :
    List FEntry → List FEntry
  | [] => []
  | e :: rest =>
    if yearRejects minYear e then filter_metadata_semantic sim minYear minSim rest
    else if pyStrip (textOf e) = "" then filter_metadata_semantic sim minYear minSim rest
    else if sim (textOf e) < minSim then filter_metadata_semantic sim minYear minSim rest
    else
      upsert "semantic_similarity" (FVal.num (sim (textOf e))) e ::
        filter_metadata_semantic sim minYear minSim rest

/-- C6 (amended): with `min_similarity = 0` and no `min_year`, the filter
returns exactly the records whose concatenated title-and-summary text has
a non-whitespace character and whose similarity score is at least 0, each
unchanged except for the added `semantic_similarity` field; in particular
records with empty title and summary are excluded. -/
theorem C6_zero_threshold_filter (sim : String → ℚ) (l : List FEntry) :
    filter_metadata_semantic sim none 0 l =
      (l.filter (fun e => decide (pyStrip (textOf e) ≠ "") && decide (0 ≤ sim (textOf e)))).map
        (fun e => upsert "semantic_similarity" (FVal.num (sim (textOf e))) e) := by
  induction l with
  | nil => rfl
  | cons e rest ih =>
    rw [filter_metadata_semantic]
    have hyr : ¬(yearRejects none e = true) := by simp [yearRejects]
    rw [if_neg hyr, List.filter_cons]
    by_cases ht : pyStrip (textOf e) = ""
    · rw [if_pos ht, ih]
      have hp : (decide (pyStrip (textOf e) ≠ "") && decide (0 ≤ sim (textOf e))) = false := by
        simp [ht]
      rw [hp]
      simp
    · rw [if_neg ht]
      by_cases hs : sim (textOf e) < 0
      · rw [if_pos hs, ih]
        have hp : (decide (pyStrip (textOf e) ≠ "") && decide (0 ≤ sim (textOf e))) = false := by
          simp [ht, hs, not_le.mpr hs]
        rw [hp]
        simp
      · rw [if_neg hs, ih]
        have hp : (decide (pyStrip (textOf e) ≠ "") && decide (0 ≤ sim (textOf e))) = true := by
          simp [ht, not_lt.mp hs]
        rw [hp]
        simp

/-- A record with non-empty title used in the C6 counterexample. -/
def entC6 : FEntry := [("title", FVal.str "T")]

/-- Counterexample to C6 as stated: under an embedding oracle whose
cosine similarity is negative (here constantly -1), a record with
non-empty title+summary text is dropped at `min_similarity = 0`, because
the source keeps a record only when `score >= min_similarity`. -/
theorem C6_counterexample :
    pyStrip (textOf entC6) ≠ "" ∧
      filter_metadata_semantic (fun _ => (-1 : ℚ)) none 0 [entC6] = [] := by
  constructor
  · decide
  · decide

theorem getStr_upsert_other (e : FEntry) (k k2 : String) (v : FVal) (h : k2 ≠ k) :
    getStr (upsert k v e) k2 = getStr e k2 := by
  rw [getStr, getStr, upsert_lookup_other k k2 v e h]

theorem yearRejects_upsert (minYear : Option Int) (e : FEntry) (v : FVal) :
    yearRejects minYear (upsert "semantic_similarity" v e) = yearRejects minYear e := by
  cases minYear with
  | none => rfl
  | some m =>
    rw [yearRejects, yearRejects,
      getStr_upsert_other e "semantic_similarity" "published" v (by decide)]

theorem filterSem_mem_not_rejected (sim : String → ℚ) (minYear : Option Int) (minSim : ℚ)
    (l : List FEntry) (e : FEntry) (he : e ∈ filter_metadata_semantic sim minYear minSim l) :
    yearRejects minYear e = false := by
  induction l with
  | nil => simp [filter_metadata_semantic] at he
  | cons a rest ih =>
    rw [filter_metadata_semantic] at he
    by_cases hy : yearRejects minYear a = true
    · rw [if_pos hy] at he
      exact ih he
    · rw [if_neg hy] at he
      by_cases ht : pyStrip (textOf a) = ""
      · rw [if_pos ht] at he
        exact ih he
      · rw [if_neg ht] at he
        by_cases hs : sim (textOf a) < minSim
        · rw [if_pos hs] at he
          exact ih he
        · rw [if_neg hs] at he
          rcases List.mem_cons.mp he with hEq | hMem
          · subst hEq
            rw [yearRejects_upsert]
            exact Bool.not_eq_true _ ▸ hy
          · exact ih hMem

/-- C7 (amended): for every set `min_year` value other than 0 (`0` is
falsy in Python `if min_year:`, which skips the year filter entirely),
every record of the filter output carries a leading four-digit year at
least `min_year`, and a record is rejected by the year constraint exactly
when its `published` value has no leading four-digit year — no parseable
year fails the constraint rather than passing by default — or that year
is below `min_year`. -/
theorem C7_year_filter (sim : String → ℚ) (minSim : ℚ) (l : List FEntry) (m : Int)
    (hm : m ≠ 0) :
    (∀ e ∈ filter_metadata_semantic sim (some m) minSim l,
      ∃ y, parseYear (getStr e "published") = some y ∧ m ≤ (y : Int)) ∧
    (∀ e : FEntry, yearRejects (some m) e = true ↔
      (parseYear (getStr e "published") = none ∨
        ∃ y, parseYear (getStr e "published") = some y ∧ (y : Int) < m)) := by
  have hiff : ∀ e : FEntry, yearRejects (some m) e = true ↔
      (parseYear (getStr e "published") = none ∨
        ∃ y, parseYear (getStr e "published") = some y ∧ (y : Int) < m) := by
    intro e
    rw [yearRejects, if_neg hm]
    cases hp : parseYear (getStr e "published") with
    | none => simp
    | some y => simp
  refine ⟨?_, hiff⟩
  intro e he
  have hrej := filterSem_mem_not_rejected sim (some m) minSim l e he
  have hnot : ¬(parseYear (getStr e "published") = none ∨
      ∃ y, parseYear (getStr e "published") = some y ∧ (y : Int) < m) := by
    intro hc
    rw [(hiff e).mpr hc] at hrej
    exact Bool.noConfusion hrej
  push_neg at hnot
  obtain ⟨hne, hall⟩ := hnot
  cases hp : parseYear (getStr e "published") with
  | none => exact absurd hp hne
  | some y => exact ⟨y, rfl, hall y hp⟩

/-- A record with an unparseable `published` value, used for C7. -/
def entC7 : FEntry := [("published", FVal.str "Unknown"), ("title", FVal.str "T")]

/-- Witness for C7: at `min_year = 2020`, a record whose `published`
value has no leading four-digit year is rejected by the year constraint. -/
theorem C7_year_filter_witness : yearRejects (some 2020) entC7 = true :=
  ((C7_year_filter (fun _ => 1) 0 [] 2020 (by decide)).2 entC7).mpr (Or.inl (by decide))

/-- Counterexample to C7 as stated: at the set value `min_year = 0` the
year filter is skipped (Python `if min_year:` is falsy at 0), so a record
with no parseable year is kept, not excluded. -/
theorem C7_counterexample :
    parseYear (getStr entC7 "published") = none ∧
      filter_metadata_semantic (fun _ => 1) (some 0) 0 [entC7] =
        [upsert "semantic_similarity" (FVal.num 1) entC7] := by
  constructor
  · decide
  · decide

/-! ### Full-text retriever (src/full_text_fetcher.py) -/

/-- A metadata record at the full-text stage: a dict in insertion order
with string values (the fields this stage reads and writes are all
strings). -/
abbrev TEntry := List (String × String)

/-- Python `entry.get(k)`: `none` when the key is absent. -/
def tget (e : TEntry) (k : String) : Option String := e.lookup k

/-- The value of a key that the source reads after a truthiness check. -/
def tgetD (e : TEntry) (k : String) : String := (e.lookup k).getD ""

/-- Python truthiness of `entry.get(k)`: false for a missing key and for
the empty string. -/
def truthyS (o : Option String) : Bool :=
  match o with
  | some v => v != ""
  | none => false

/-- The network and extraction effects of the full-text fetcher, passed
in as an oracle: `pdfOk url` is `download_pdf(url, out_path)` succeeding
(response ok with a PDF content-type), `unpaywallUrl doi` is the value
`fetch_unpaywall_pdf(doi, out_path)` returns (`none` also covers a
missing `UNPAYWALL_EMAIL`, API failure, no OA location, or a failed
download), `htmlOk url` is `fetch_html(url, out_path)` succeeding,
`pdfText`/`htmlText` are the extractors applied to the saved file, and
`entryHash e` is Python `str(hash(str(entry)))` used as a fallback file
name. -/
structure Net where
  pdfOk : String → Bool
  unpaywallUrl : String → Option String
  htmlOk : String → Bool
  pdfText : String → String
  htmlText : String → String
  entryHash : TEntry → String

/-- The PubMed-Central URL derived from a PMID (full_text_fetcher.py line
161). -/
def pmcUrl (pmid : String) : String :=
  "https://www.ncbi.nlm.nih.gov/pmc/articles/PMC" ++ pmid ++ "/pdf/"

/-- Lines 127-128: `entry_id = entry.get("id") or entry.get("link") or
str(hash(str(entry)))`, then `/` and `:` replaced by `_`. -/
def safeIdOf (net : Net) (e : TEntry) : String :=
  let eid :=
    if truthyS (tget e "id") then tgetD e "id"
    else if truthyS (tget e "link") then tgetD e "link"
    else net.entryHash e
  pyReplace (pyReplace eid "/" "_") ":" "_"

/-- The dict updates of a successful PDF or HTML strategy (lines 138-141,
163-166, 174-177): `fulltext_path`, then `fulltext_status = "success"`,
then `fulltext_type`, then `full_text` from the extractor. -/
def ftSuccess (e : TEntry) (path typ text : String) : TEntry :=
  upsert "full_text" text (upsert "fulltext_type" typ
    (upsert "fulltext_status" "success" (upsert "fulltext_path" path e)))

/-- Step 5 (lines 182-184): mark `fulltext_status = "not_found"` and
return.  The second component of every `ftStage` result is the list of
successive assignments to `fulltext_status`, in program order. -/
def ftStage5 (e : TEntry) (tr : List String) : TEntry × List String :=
  (upsert "fulltext_status" "not_found" e, tr ++ ["not_found"])

/-- Step 4 (lines 171-180): HTML download from `link` when truthy. -/
def ftStage4 (net : Net) (htmlPath : String) (e : TEntry) (tr : List String) :
    TEntry × List String :=
  if truthyS (tget e "link") then
    if net.htmlOk (tgetD e "link") then
      (ftSuccess e htmlPath "html" (net.htmlText htmlPath), tr ++ ["success"])
    else ftStage5 (upsert "fulltext_status" "html_failed" e) (tr ++ ["html_failed"])
  else ftStage5 e tr

/-- Step 3 (lines 159-169): PMC-derived PDF URL when `pmid` is truthy. -/
def ftStage3 (net : Net) (pdfPath htmlPath : String) (e : TEntry) (tr : List String) :
    TEntry × List String :=
  if truthyS (tget e "pmid") then
    if net.pdfOk (pmcUrl (tgetD e "pmid")) then
      (ftSuccess e pdfPath "pdf" (net.pdfText pdfPath), tr ++ ["success"])
    else ftStage4 net htmlPath (upsert "fulltext_status" "pmc_failed" e) (tr ++ ["pmc_failed"])
  else ftStage4 net htmlPath e tr

/-- Step 2 (lines 146-157): Unpaywall lookup when `doi` is truthy; a
success additionally records `fulltext_pdf_url`. -/
def ftStage2 (net : Net) (pdfPath htmlPath : String) (e : TEntry) (tr : List String) :
    TEntry × List String :=
  if truthyS (tget e "doi") then
    match net.unpaywallUrl (tgetD e "doi") with
    | some u =>
      (upsert "full_text" (net.pdfText pdfPath) (upsert "fulltext_pdf_url" u
        (upsert "fulltext_type" "pdf" (upsert "fulltext_status" "success"
          (upsert "fulltext_path" pdfPath e)))), tr ++ ["success"])
    | none => ftStage3 net pdfPath htmlPath (upsert "fulltext_status" "unpaywall_failed" e)
        (tr ++ ["unpaywall_failed"])
  else ftStage3 net pdfPath htmlPath e tr

/-- `fetch_full_text_for_entry` (lines 111-184): paths from the safe id,
`entry["full_text"] = ""`, then the four strategies in order, stopping at
the first success, finally `not_found`.  The first component is the
function's return value; the second records the successive assignments to
`fulltext_status`. -/
def fetch_full_text_for_entry (net : Net) (fulltextDir : String) (e0 : TEntry) :
    TEntry × List String :=
  let sid := safeIdOf net e0
  let pdfPath := fulltextDir ++ "/" ++ sid ++ ".pdf"
  let htmlPath := fulltextDir ++ "/" ++ sid ++ ".html"
  let e := upsert "full_text" "" e0
  if truthyS (tget e "pdf_url") then
    if net.pdfOk (tgetD e "pdf_url") then
      (ftSuccess e pdfPath "pdf" (net.pdfText pdfPath), ["success"])
    else ftStage2 net pdfPath htmlPath (upsert "fulltext_status" "pdf_url_failed" e)
      ["pdf_url_failed"]
  else ftStage2 net pdfPath htmlPath e []

/-- `fetch_full_text_for_all` (lines 186-214): every entry is processed
and appended to the result list; the write of
`metadata_with_fulltext.json` and the politeness delay are I/O outside
the model. -/
def fetch_full_text_for_all (net : Net) (project : String) (l : List TEntry) : List TEntry :=
  l.map (fun e => (fetch_full_text_for_entry net ("data/" ++ project ++ "/fulltext") e).1)

theorem tget_upsert_other (e : TEntry) (k k2 v : String) (h : k2 ≠ k) :
    tget (upsert k v e) k2 = tget e k2 :=
  upsert_lookup_other k k2 v e h

theorem tget_upsert_self (e : TEntry) (k v : String) :
    tget (upsert k v e) k = some v :=
  upsert_lookup_self k v e

theorem tgetD_upsert_other (e : TEntry) (k k2 v : String) (h : k2 ≠ k) :
    tgetD (upsert k v e) k2 = tgetD e k2 := by
  rw [tgetD, tgetD, upsert_lookup_other k k2 v e h]

/-- Claim-side description of the acquisition chain: each strategy is a
triple (applicable, succeeds, failure label); strategies are tried in
order, each only when applicable, stopping at the first success, the
label recorded when a tried strategy fails, and `not_found` recorded when
every applicable strategy has failed. -/
def chainTrace : List (Bool × Bool × String) → List String
  | [] => ["not_found"]
  | s :: rest =>
    if s.1 then (if s.2.1 then ["success"] else s.2.2 :: chainTrace rest)
    else chainTrace rest

/-- The four strategies of the claim, in their fixed order, for a record
`e` under the oracle `net`: direct PDF from `pdf_url`, open-access lookup
via `doi`, PMC-derived URL via `pmid`, HTML from `link`. -/
def strategies (net : Net) (e : TEntry) : List (Bool × Bool × String) :=
  [(truthyS (tget e "pdf_url"), net.pdfOk (tgetD e "pdf_url"), "pdf_url_failed"),
   (truthyS (tget e "doi"), (net.unpaywallUrl (tgetD e "doi")).isSome, "unpaywall_failed"),
   (truthyS (tget e "pmid"), net.pdfOk (pmcUrl (tgetD e "pmid")), "pmc_failed"),
   (truthyS (tget e "link"), net.htmlOk (tgetD e "link"), "html_failed")]

theorem ftStage4_trace (net : Net) (htmlPath : String) (e : TEntry) (tr : List String) :
    (ftStage4 net htmlPath e tr).2 =
      tr ++ chainTrace [(truthyS (tget e "link"), net.htmlOk (tgetD e "link"), "html_failed")] := by
  rw [ftStage4]
  by_cases hl : truthyS (tget e "link") = true
  · rw [if_pos hl]
    by_cases hs : net.htmlOk (tgetD e "link") = true
    · rw [if_pos hs]
      simp [chainTrace, hl, hs]
    · rw [if_neg hs, ftStage5]
      have hs2 : net.htmlOk (tgetD e "link") = false := Bool.not_eq_true _ ▸ hs
      simp [chainTrace, hl, hs2]
  · have hl2 : truthyS (tget e "link") = false := Bool.not_eq_true _ ▸ hl
    rw [if_neg hl, ftStage5]
    simp [chainTrace, hl2]

theorem ftStage3_trace (net : Net) (pdfPath htmlPath : String) (e : TEntry) (tr : List String) :
    (ftStage3 net pdfPath htmlPath e tr).2 =
      tr ++ chainTrace
        [(truthyS (tget e "pmid"), net.pdfOk (pmcUrl (tgetD e "pmid")), "pmc_failed"),
         (truthyS (tget e "link"), net.htmlOk (tgetD e "link"), "html_failed")] := by
  rw [ftStage3]
  by_cases hp : truthyS (tget e "pmid") = true
  · rw [if_pos hp]
    by_cases hs : net.pdfOk (pmcUrl (tgetD e "pmid")) = true
    · rw [if_pos hs]
      simp [chainTrace, hp, hs]
    · rw [if_neg hs, ftStage4_trace]
      have hs2 : net.pdfOk (pmcUrl (tgetD e "pmid")) = false := Bool.not_eq_true _ ▸ hs
      rw [tget_upsert_other e "fulltext_status" "link" "pmc_failed" (by decide),
        tgetD_upsert_other e "fulltext_status" "link" "pmc_failed" (by decide)]
      simp [chainTrace, hp, hs2]
  · have hp2 : truthyS (tget e "pmid") = false := Bool.not_eq_true _ ▸ hp
    rw [if_neg hp, ftStage4_trace]
    simp [chainTrace, hp2]

theorem ftStage2_trace (net : Net) (pdfPath htmlPath : String) (e : TEntry) (tr : List String) :
    (ftStage2 net pdfPath htmlPath e tr).2 =
      tr ++ chainTrace
        [(truthyS (tget e "doi"), (net.unpaywallUrl (tgetD e "doi")).isSome, "unpaywall_failed"),
         (truthyS (tget e "pmid"), net.pdfOk (pmcUrl (tgetD e "pmid")), "pmc_failed"),
         (truthyS (tget e "link"), net.htmlOk (tgetD e "link"), "html_failed")] := by
  rw [ftStage2]
  by_cases hd : truthyS (tget e "doi") = true
  · rw [if_pos hd]
    cases hu : net.unpaywallUrl (tgetD e "doi") with
    | some u =>
      simp [chainTrace, hd, hu]
    | none =>
      rw [ftStage3_trace]
      rw [tget_upsert_other e "fulltext_status" "pmid" "unpaywall_failed" (by decide),
        tgetD_upsert_other e "fulltext_status" "pmid" "unpaywall_failed" (by decide),
        tget_upsert_other e "fulltext_status" "link" "unpaywall_failed" (by decide),
        tgetD_upsert_other e "fulltext_status" "link" "unpaywall_failed" (by decide)]
      simp [chainTrace, hd, hu]
  · have hd2 : truthyS (tget e "doi") = false := Bool.not_eq_true _ ▸ hd
    rw [if_neg hd, ftStage3_trace]
    simp [chainTrace, hd2]

theorem fetch_full_text_trace (net : Net) (dir : String) (e0 : TEntry) :
    (fetch_full_text_for_entry net dir e0).2 = chainTrace (strategies net e0) := by
  rw [fetch_full_text_for_entry, strategies]
  have hpu : tget (upsert "full_text" "" e0) "pdf_url" = tget e0 "pdf_url" :=
    tget_upsert_other e0 "full_text" "pdf_url" "" (by decide)
  have hpuD : tgetD (upsert "full_text" "" e0) "pdf_url" = tgetD e0 "pdf_url" :=
    tgetD_upsert_other e0 "full_text" "pdf_url" "" (by decide)
  by_cases hp : truthyS (tget e0 "pdf_url") = true
  · rw [hpu, hpuD, if_pos hp]
    by_cases hs : net.pdfOk (tgetD e0 "pdf_url") = true
    · rw [if_pos hs]
      simp [chainTrace, hp, hs]
    · rw [if_neg hs, ftStage2_trace]
      have hs2 : net.pdfOk (tgetD e0 "pdf_url") = false := Bool.not_eq_true _ ▸ hs
      rw [tget_upsert_other _ "fulltext_status" "doi" "pdf_url_failed" (by decide),
        tgetD_upsert_other _ "fulltext_status" "doi" "pdf_url_failed" (by decide),
        tget_upsert_other _ "fulltext_status" "pmid" "pdf_url_failed" (by decide),
        tgetD_upsert_other _ "fulltext_status" "pmid" "pdf_url_failed" (by decide),
        tget_upsert_other _ "fulltext_status" "link" "pdf_url_failed" (by decide),
        tgetD_upsert_other _ "fulltext_status" "link" "pdf_url_failed" (by decide),
        tget_upsert_other e0 "full_text" "doi" "" (by decide),
        tgetD_upsert_other e0 "full_text" "doi" "" (by decide),
        tget_upsert_other e0 "full_text" "pmid" "" (by decide),
        tgetD_upsert_other e0 "full_text" "pmid" "" (by decide),
        tget_upsert_other e0 "full_text" "link" "" (by decide),
        tgetD_upsert_other e0 "full_text" "link" "" (by decide)]
      simp [chainTrace, hp, hs2]
  · have hp2 : truthyS (tget e0 "pdf_url") = false := Bool.not_eq_true _ ▸ hp
    rw [hpu, if_neg hp, ftStage2_trace]
    rw [tget_upsert_other e0 "full_text" "doi" "" (by decide),
      tgetD_upsert_other e0 "full_text" "doi" "" (by decide),
      tget_upsert_other e0 "full_text" "pmid" "" (by decide),
      tgetD_upsert_other e0 "full_text" "pmid" "" (by decide),
      tget_upsert_other e0 "full_text" "link" "" (by decide),
      tgetD_upsert_other e0 "full_text" "link" "" (by decide)]
    simp [chainTrace, hp2]

theorem ftStage5_fail (e : TEntry) (tr : List String) :
    tget (ftStage5 e tr).1 "fulltext_status" = some "not_found" ∧
      ∀ k, k ≠ "fulltext_status" → tget (ftStage5 e tr).1 k = tget e k := by
  refine ⟨tget_upsert_self e "fulltext_status" "not_found", ?_⟩
  intro k hk
  exact tget_upsert_other e "fulltext_status" k "not_found" hk

theorem ftStage4_fail (net : Net) (htmlPath : String) (e : TEntry) (tr : List String)
    (h : truthyS (tget e "link") = true → net.htmlOk (tgetD e "link") = false) :
    tget (ftStage4 net htmlPath e tr).1 "fulltext_status" = some "not_found" ∧
      ∀ k, k ≠ "fulltext_status" → tget (ftStage4 net htmlPath e tr).1 k = tget e k := by
  rw [ftStage4]
  by_cases hl : truthyS (tget e "link") = true
  · have hf := h hl
    rw [if_pos hl, if_neg (by simp [hf])]
    have B := ftStage5_fail (upsert "fulltext_status" "html_failed" e) (tr ++ ["html_failed"])
    refine ⟨B.1, ?_⟩
    intro k hk
    rw [B.2 k hk, tget_upsert_other e "fulltext_status" k "html_failed" hk]
  · rw [if_neg hl]
    exact ftStage5_fail e tr

theorem ftStage3_fail (net : Net) (pdfPath htmlPath : String) (e : TEntry) (tr : List String)
    (h3 : truthyS (tget e "pmid") = true → net.pdfOk (pmcUrl (tgetD e "pmid")) = false)
    (h4 : truthyS (tget e "link") = true → net.htmlOk (tgetD e "link") = false) :
    tget (ftStage3 net pdfPath htmlPath e tr).1 "fulltext_status" = some "not_found" ∧
      ∀ k, k ≠ "fulltext_status" → tget (ftStage3 net pdfPath htmlPath e tr).1 k = tget e k := by
  rw [ftStage3]
  by_cases hp : truthyS (tget e "pmid") = true
  · have hf := h3 hp
    rw [if_pos hp, if_neg (by simp [hf])]
    have h4' : truthyS (tget (upsert "fulltext_status" "pmc_failed" e) "link") = true →
        net.htmlOk (tgetD (upsert "fulltext_status" "pmc_failed" e) "link") = false := by
      rw [tget_upsert_other e "fulltext_status" "link" "pmc_failed" (by decide),
        tgetD_upsert_other e "fulltext_status" "link" "pmc_failed" (by decide)]
      exact h4
    have B := ftStage4_fail net htmlPath (upsert "fulltext_status" "pmc_failed" e)
      (tr ++ ["pmc_failed"]) h4'
    refine ⟨B.1, ?_⟩
    intro k hk
    rw [B.2 k hk, tget_upsert_other e "fulltext_status" k "pmc_failed" hk]
  · rw [if_neg hp]
    exact ftStage4_fail net htmlPath e tr h4

theorem ftStage2_fail (net : Net) (pdfPath htmlPath : String) (e : TEntry) (tr : List String)
    (h2 : truthyS (tget e "doi") = true → net.unpaywallUrl (tgetD e "doi") = none)
    (h3 : truthyS (tget e "pmid") = true → net.pdfOk (pmcUrl (tgetD e "pmid")) = false)
    (h4 : truthyS (tget e "link") = true → net.htmlOk (tgetD e "link") = false) :
    tget (ftStage2 net pdfPath htmlPath e tr).1 "fulltext_status" = some "not_found" ∧
      ∀ k, k ≠ "fulltext_status" → tget (ftStage2 net pdfPath htmlPath e tr).1 k = tget e k := by
  rw [ftStage2]
  by_cases hd : truthyS (tget e "doi") = true
  · have hf := h2 hd
    rw [if_pos hd, hf]
    have h3' : truthyS (tget (upsert "fulltext_status" "unpaywall_failed" e) "pmid") = true →
        net.pdfOk (pmcUrl (tgetD (upsert "fulltext_status" "unpaywall_failed" e) "pmid")) = false := by
      rw [tget_upsert_other e "fulltext_status" "pmid" "unpaywall_failed" (by decide),
        tgetD_upsert_other e "fulltext_status" "pmid" "unpaywall_failed" (by decide)]
      exact h3
    have h4' : truthyS (tget (upsert "fulltext_status" "unpaywall_failed" e) "link") = true →
        net.htmlOk (tgetD (upsert "fulltext_status" "unpaywall_failed" e) "link") = false := by
      rw [tget_upsert_other e "fulltext_status" "link" "unpaywall_failed" (by decide),
        tgetD_upsert_other e "fulltext_status" "link" "unpaywall_failed" (by decide)]
      exact h4
    have B := ftStage3_fail net pdfPath htmlPath (upsert "fulltext_status" "unpaywall_failed" e)
      (tr ++ ["unpaywall_failed"]) h3' h4'
    refine ⟨B.1, ?_⟩
    intro k hk
    rw [B.2 k hk, tget_upsert_other e "fulltext_status" k "unpaywall_failed" hk]
  · rw [if_neg hd]
    exact ftStage3_fail net pdfPath htmlPath e tr h3 h4

/-- The condition that every applicable strategy fails for `e` under the
oracle `net`. -/
abbrev allFail (net : Net) (e : TEntry) : Prop :=
  (truthyS (tget e "pdf_url") = true → net.pdfOk (tgetD e "pdf_url") = false) ∧
  (truthyS (tget e "doi") = true → net.unpaywallUrl (tgetD e "doi") = none) ∧
  (truthyS (tget e "pmid") = true → net.pdfOk (pmcUrl (tgetD e "pmid")) = false) ∧
  (truthyS (tget e "link") = true → net.htmlOk (tgetD e "link") = false)

/-- C4: for every record and every network oracle, the sequence of
`fulltext_status` assignments is exactly the claim's chain — strategies
in the fixed order pdf_url, doi, pmid, link, each tried only when its
field is truthy, stopping at the first success, the matching failure
label recorded for each tried-and-failed strategy, `not_found` appended
when no applicable strategy succeeds; when every applicable strategy
fails the returned record's final status is `not_found` and every field
other than `full_text` (initialised to the empty string) and
`fulltext_status` is unchanged; and the stage never drops a record from
the set. -/
theorem C4_fulltext_chain (net : Net) (dir : String) (e : TEntry) :
    (fetch_full_text_for_entry net dir e).2 = chainTrace (strategies net e) ∧
    (allFail net e →
      tget (fetch_full_text_for_entry net dir e).1 "fulltext_status" = some "not_found" ∧
      ∀ k, k ≠ "full_text" → k ≠ "fulltext_status" →
        tget (fetch_full_text_for_entry net dir e).1 k = tget e k) ∧
    (∀ project l, (fetch_full_text_for_all net project l).length = l.length) := by
  refine ⟨fetch_full_text_trace net dir e, ?_, ?_⟩
  · intro hall
    obtain ⟨h1, h2, h3, h4⟩ := hall
    rw [fetch_full_text_for_entry]
    have hpu : tget (upsert "full_text" "" e) "pdf_url" = tget e "pdf_url" :=
      tget_upsert_other e "full_text" "pdf_url" "" (by decide)
    have h2' : truthyS (tget (upsert "full_text" "" e) "doi") = true →
        net.unpaywallUrl (tgetD (upsert "full_text" "" e) "doi") = none := by
      rw [tget_upsert_other e "full_text" "doi" "" (by decide),
        tgetD_upsert_other e "full_text" "doi" "" (by decide)]
      exact h2
    have h3' : truthyS (tget (upsert "full_text" "" e) "pmid") = true →
        net.pdfOk (pmcUrl (tgetD (upsert "full_text" "" e) "pmid")) = false := by
      rw [tget_upsert_other e "full_text" "pmid" "" (by decide),
        tgetD_upsert_other e "full_text" "pmid" "" (by decide)]
      exact h3
    have h4' : truthyS (tget (upsert "full_text" "" e) "link") = true →
        net.htmlOk (tgetD (upsert "full_text" "" e) "link") = false := by
      rw [tget_upsert_other e "full_text" "link" "" (by decide),
        tgetD_upsert_other e "full_text" "link" "" (by decide)]
      exact h4
    by_cases hp : truthyS (tget e "pdf_url") = true
    · have hf := h1 hp
      rw [hpu, if_pos hp,
        if_neg (by rw [tgetD_upsert_other e "full_text" "pdf_url" "" (by decide)]; simp [hf])]
      have h2s : truthyS (tget (upsert "fulltext_status" "pdf_url_failed"
          (upsert "full_text" "" e)) "doi") = true →
          net.unpaywallUrl (tgetD (upsert "fulltext_status" "pdf_url_failed"
            (upsert "full_text" "" e)) "doi") = none := by
        rw [tget_upsert_other _ "fulltext_status" "doi" "pdf_url_failed" (by decide),
          tgetD_upsert_other _ "fulltext_status" "doi" "pdf_url_failed" (by decide)]
        exact h2'
      have h3s : truthyS (tget (upsert "fulltext_status" "pdf_url_failed"
          (upsert "full_text" "" e)) "pmid") = true →
          net.pdfOk (pmcUrl (tgetD (upsert "fulltext_status" "pdf_url_failed"
            (upsert "full_text" "" e)) "pmid")) = false := by
        rw [tget_upsert_other _ "fulltext_status" "pmid" "pdf_url_failed" (by decide),
          tgetD_upsert_other _ "fulltext_status" "pmid" "pdf_url_failed" (by decide)]
        exact h3'
      have h4s : truthyS (tget (upsert "fulltext_status" "pdf_url_failed"
          (upsert "full_text" "" e)) "link") = true →
          net.htmlOk (tgetD (upsert "fulltext_status" "pdf_url_failed"
            (upsert "full_text" "" e)) "link") = false := by
        rw [tget_upsert_other _ "fulltext_status" "link" "pdf_url_failed" (by decide),
          tgetD_upsert_other _ "fulltext_status" "link" "pdf_url_failed" (by decide)]
        exact h4'
      have B := ftStage2_fail net (dir ++ "/" ++ safeIdOf net e ++ ".pdf")
        (dir ++ "/" ++ safeIdOf net e ++ ".html")
        (upsert "fulltext_status" "pdf_url_failed" (upsert "full_text" "" e))
        ["pdf_url_failed"] h2s h3s h4s
      refine ⟨B.1, ?_⟩
      intro k hkf hks
      rw [B.2 k hks, tget_upsert_other _ "fulltext_status" k "pdf_url_failed" hks,
        tget_upsert_other e "full_text" k "" hkf]
    · rw [hpu, if_neg hp]
      have B := ftStage2_fail net (dir ++ "/" ++ safeIdOf net e ++ ".pdf")
        (dir ++ "/" ++ safeIdOf net e ++ ".html")
        (upsert "full_text" "" e) [] h2' h3' h4'
      refine ⟨B.1, ?_⟩
      intro k hkf hks
      rw [B.2 k hks, tget_upsert_other e "full_text" k "" hkf]
  · intro project l
    rw [fetch_full_text_for_all, List.length_map]

/-- The keys written by the full-text stage. -/
def specialKeys : List String :=
  ["fulltext_path", "fulltext_status", "fulltext_type", "full_text", "fulltext_pdf_url"]

theorem specialKeys_ne (k : String) (hk : k ∉ specialKeys) :
    k ≠ "fulltext_path" ∧ k ≠ "fulltext_status" ∧ k ≠ "fulltext_type" ∧
      k ≠ "full_text" ∧ k ≠ "fulltext_pdf_url" := by
  simp only [specialKeys, List.mem_cons, List.not_mem_nil, or_false, not_or] at hk
  exact hk

theorem ftSuccess_frame (e : TEntry) (path typ text k : String) (hk : k ∉ specialKeys) :
    tget (ftSuccess e path typ text) k = tget e k := by
  obtain ⟨h1, h2, h3, h4, _⟩ := specialKeys_ne k hk
  rw [ftSuccess, tget_upsert_other _ _ _ _ h4, tget_upsert_other _ _ _ _ h3,
    tget_upsert_other _ _ _ _ h2, tget_upsert_other _ _ _ _ h1]

theorem ftSuccess_status (e : TEntry) (path typ text : String) :
    tget (ftSuccess e path typ text) "fulltext_status" = some "success" := by
  rw [ftSuccess, tget_upsert_other _ _ _ _ (by decide), tget_upsert_other _ _ _ _ (by decide),
    tget_upsert_self]

theorem ftSuccess_fulltext (e : TEntry) (path typ text : String) :
    tget (ftSuccess e path typ text) "full_text" = some text := by
  rw [ftSuccess, tget_upsert_self]

theorem ftStage5_frame (e : TEntry) (tr : List String) (k : String) (hk : k ∉ specialKeys) :
    tget (ftStage5 e tr).1 k = tget e k :=
  tget_upsert_other e "fulltext_status" k "not_found" (specialKeys_ne k hk).2.1

theorem ftStage5_out (e : TEntry) (tr : List String) :
    (tget (ftStage5 e tr).1 "fulltext_status").isSome = true ∧
      ((tget e "full_text").isSome = true → (tget (ftStage5 e tr).1 "full_text").isSome = true) := by
  constructor
  · rw [ftStage5]
    rw [tget_upsert_self]
    rfl
  · intro hft
    rw [ftStage5]
    rw [tget_upsert_other e "fulltext_status" "full_text" "not_found" (by decide)]
    exact hft

theorem ftStage4_frame (net : Net) (htmlPath : String) (e : TEntry) (tr : List String)
    (k : String) (hk : k ∉ specialKeys) :
    tget (ftStage4 net htmlPath e tr).1 k = tget e k := by
  rw [ftStage4]
  by_cases hl : truthyS (tget e "link") = true
  · rw [if_pos hl]
    by_cases hs : net.htmlOk (tgetD e "link") = true
    · rw [if_pos hs]
      exact ftSuccess_frame e htmlPath "html" (net.htmlText htmlPath) k hk
    · rw [if_neg hs]
      rw [ftStage5_frame _ _ k hk,
        tget_upsert_other e "fulltext_status" k "html_failed" (specialKeys_ne k hk).2.1]
  · rw [if_neg hl]
    exact ftStage5_frame e tr k hk

theorem ftStage4_out (net : Net) (htmlPath : String) (e : TEntry) (tr : List String) :
    (tget (ftStage4 net htmlPath e tr).1 "fulltext_status").isSome = true ∧
      ((tget e "full_text").isSome = true →
        (tget (ftStage4 net htmlPath e tr).1 "full_text").isSome = true) := by
  rw [ftStage4]
  by_cases hl : truthyS (tget e "link") = true
  · rw [if_pos hl]
    by_cases hs : net.htmlOk (tgetD e "link") = true
    · rw [if_pos hs]
      constructor
      · rw [ftSuccess_status]; rfl
      · intro _
        rw [ftSuccess_fulltext]; rfl
    · rw [if_neg hs]
      have B := ftStage5_out (upsert "fulltext_status" "html_failed" e) (tr ++ ["html_failed"])
      refine ⟨B.1, ?_⟩
      intro hft
      refine B.2 ?_
      rw [tget_upsert_other e "fulltext_status" "full_text" "html_failed" (by decide)]
      exact hft
  · rw [if_neg hl]
    exact ftStage5_out e tr

theorem ftStage3_frame (net : Net) (pdfPath htmlPath : String) (e : TEntry) (tr : List String)
    (k : String) (hk : k ∉ specialKeys) :
    tget (ftStage3 net pdfPath htmlPath e tr).1 k = tget e k := by
  rw [ftStage3]
  by_cases hp : truthyS (tget e "pmid") = true
  · rw [if_pos hp]
    by_cases hs : net.pdfOk (pmcUrl (tgetD e "pmid")) = true
    · rw [if_pos hs]
      exact ftSuccess_frame e pdfPath "pdf" (net.pdfText pdfPath) k hk
    · rw [if_neg hs]
      rw [ftStage4_frame _ _ _ _ k hk,
        tget_upsert_other e "fulltext_status" k "pmc_failed" (specialKeys_ne k hk).2.1]
  · rw [if_neg hp]
    exact ftStage4_frame net htmlPath e tr k hk

theorem ftStage3_out (net : Net) (pdfPath htmlPath : String) (e : TEntry) (tr : List String) :
    (tget (ftStage3 net pdfPath htmlPath e tr).1 "fulltext_status").isSome = true ∧
      ((tget e "full_text").isSome = true →
        (tget (ftStage3 net pdfPath htmlPath e tr).1 "full_text").isSome = true) := by
  rw [ftStage3]
  by_cases hp : truthyS (tget e "pmid") = true
  · rw [if_pos hp]
    by_cases hs : net.pdfOk (pmcUrl (tgetD e "pmid")) = true
    · rw [if_pos hs]
      constructor
      · rw [ftSuccess_status]; rfl
      · intro _
        rw [ftSuccess_fulltext]; rfl
    · rw [if_neg hs]
      have B := ftStage4_out net htmlPath (upsert "fulltext_status" "pmc_failed" e)
        (tr ++ ["pmc_failed"])
      refine ⟨B.1, ?_⟩
      intro hft
      refine B.2 ?_
      rw [tget_upsert_other e "fulltext_status" "full_text" "pmc_failed" (by decide)]
      exact hft
  · rw [if_neg hp]
    exact ftStage4_out net htmlPath e tr

theorem ftStage2_frame (net : Net) (pdfPath htmlPath : String) (e : TEntry) (tr : List String)
    (k : String) (hk : k ∉ specialKeys) :
    tget (ftStage2 net pdfPath htmlPath e tr).1 k = tget e k := by
  obtain ⟨h1, h2, h3, h4, h5⟩ := specialKeys_ne k hk
  rw [ftStage2]
  by_cases hd : truthyS (tget e "doi") = true
  · rw [if_pos hd]
    cases hu : net.unpaywallUrl (tgetD e "doi") with
    | some u =>
      rw [tget_upsert_other _ _ _ _ h4, tget_upsert_other _ _ _ _ h5,
        tget_upsert_other _ _ _ _ h3, tget_upsert_other _ _ _ _ h2,
        tget_upsert_other _ _ _ _ h1]
    | none =>
      rw [ftStage3_frame _ _ _ _ _ k hk, tget_upsert_other e "fulltext_status" k _ h2]
  · rw [if_neg hd]
    exact ftStage3_frame net pdfPath htmlPath e tr k hk

theorem ftStage2_out (net : Net) (pdfPath htmlPath : String) (e : TEntry) (tr : List String) :
    (tget (ftStage2 net pdfPath htmlPath e tr).1 "fulltext_status").isSome = true ∧
      ((tget e "full_text").isSome = true →
        (tget (ftStage2 net pdfPath htmlPath e tr).1 "full_text").isSome = true) := by
  rw [ftStage2]
  by_cases hd : truthyS (tget e "doi") = true
  · rw [if_pos hd]
    cases hu : net.unpaywallUrl (tgetD e "doi") with
    | some u =>
      constructor
      · rw [tget_upsert_other _ _ _ _ (by decide), tget_upsert_other _ _ _ _ (by decide),
          tget_upsert_other _ _ _ _ (by decide), tget_upsert_self]
        rfl
      · intro _
        rw [tget_upsert_self]
        rfl
    | none =>
      have B := ftStage3_out net pdfPath htmlPath
        (upsert "fulltext_status" "unpaywall_failed" e) (tr ++ ["unpaywall_failed"])
      refine ⟨B.1, ?_⟩
      intro hft
      refine B.2 ?_
      rw [tget_upsert_other e "fulltext_status" "full_text" "unpaywall_failed" (by decide)]
      exact hft
  · rw [if_neg hd]
    exact ftStage3_out net pdfPath htmlPath e tr

theorem fetch_entry_frame (net : Net) (dir : String) (e : TEntry) (k : String)
    (hk : k ∉ specialKeys) :
    tget (fetch_full_text_for_entry net dir e).1 k = tget e k := by
  obtain ⟨h1, h2, h3, h4, h5⟩ := specialKeys_ne k hk
  rw [fetch_full_text_for_entry]
  have hpu : tget (upsert "full_text" "" e) "pdf_url" = tget e "pdf_url" :=
    tget_upsert_other e "full_text" "pdf_url" "" (by decide)
  by_cases hp : truthyS (tget e "pdf_url") = true
  · rw [hpu, if_pos hp]
    by_cases hs : net.pdfOk (tgetD (upsert "full_text" "" e) "pdf_url") = true
    · rw [if_pos hs]
      rw [ftSuccess_frame _ _ _ _ k hk, tget_upsert_other e "full_text" k "" h4]
    · rw [if_neg hs]
      rw [ftStage2_frame _ _ _ _ _ k hk, tget_upsert_other _ "fulltext_status" k _ h2,
        tget_upsert_other e "full_text" k "" h4]
  · rw [hpu, if_neg hp]
    rw [ftStage2_frame _ _ _ _ _ k hk, tget_upsert_other e "full_text" k "" h4]

theorem fetch_entry_out (net : Net) (dir : String) (e : TEntry) :
    (tget (fetch_full_text_for_entry net dir e).1 "fulltext_status").isSome = true ∧
      (tget (fetch_full_text_for_entry net dir e).1 "full_text").isSome = true := by
  rw [fetch_full_text_for_entry]
  have hft : (tget (upsert "full_text" "" e) "full_text").isSome = true := by
    rw [tget_upsert_self]
    rfl
  have hpu : tget (upsert "full_text" "" e) "pdf_url" = tget e "pdf_url" :=
    tget_upsert_other e "full_text" "pdf_url" "" (by decide)
  by_cases hp : truthyS (tget e "pdf_url") = true
  · rw [hpu, if_pos hp]
    by_cases hs : net.pdfOk (tgetD (upsert "full_text" "" e) "pdf_url") = true
    · rw [if_pos hs]
      constructor
      · rw [ftSuccess_status]; rfl
      · rw [ftSuccess_fulltext]; rfl
    · rw [if_neg hs]
      have B := ftStage2_out net (dir ++ "/" ++ safeIdOf net e ++ ".pdf")
        (dir ++ "/" ++ safeIdOf net e ++ ".html")
        (upsert "fulltext_status" "pdf_url_failed" (upsert "full_text" "" e))
        ["pdf_url_failed"]
      refine ⟨B.1, ?_⟩
      refine B.2 ?_
      rw [tget_upsert_other _ "fulltext_status" "full_text" "pdf_url_failed" (by decide)]
      exact hft
  · rw [hpu, if_neg hp]
    have B := ftStage2_out net (dir ++ "/" ++ safeIdOf net e ++ ".pdf")
      (dir ++ "/" ++ safeIdOf net e ++ ".html") (upsert "full_text" "" e) []
    exact ⟨B.1, B.2 hft⟩

/-- An oracle on which every strategy fails: all downloads fail and
Unpaywall finds nothing. -/
def netFail : Net :=
  ⟨fun _ => false, fun _ => none, fun _ => false, fun _ => "", fun _ => "", fun _ => "h"⟩

/-- A record with a dead `pdf_url` and a DOI, used for the C4 witness. -/
def entC4 : TEntry := [("pdf_url", "http://x/p.pdf"), ("doi", "10.1/x"), ("title", "T")]

/-- Witness for C4: with a truthy `pdf_url` whose download fails (non-PDF
content-type) and a DOI whose lookup fails, the status assignments are
`pdf_url_failed`, then `unpaywall_failed` (so the DOI strategy was
attempted next), then `not_found`; the final status is `not_found` and
the `title` field is intact. -/
theorem C4_fulltext_chain_witness :
    (fetch_full_text_for_entry netFail "data/p1/fulltext" entC4).2 =
        ["pdf_url_failed", "unpaywall_failed", "not_found"] ∧
      tget (fetch_full_text_for_entry netFail "data/p1/fulltext" entC4).1 "fulltext_status" =
        some "not_found" ∧
      tget (fetch_full_text_for_entry netFail "data/p1/fulltext" entC4).1 "title" = some "T" := by
  have T := C4_fulltext_chain netFail "data/p1/fulltext" entC4
  refine ⟨?_, (T.2.1 (by decide)).1, (T.2.1 (by decide)).2 "title" (by decide) (by decide)⟩
  rw [T.1]
  decide

/-- C9 (amended): when none of the five keys the stage can write
(`fulltext_path`, `fulltext_status`, `fulltext_type`, `full_text`,
`fulltext_pdf_url`) exists on the record beforehand, every key present
before the stage keeps its value, every key of the output is either a
prior key with its prior value or one of those five, and
`fulltext_status` and `full_text` are always added. -/
theorem C9_fulltext_adds_only (net : Net) (dir : String) (e : TEntry)
    (h : ∀ k ∈ specialKeys, tget e k = none) :
    (∀ k v, tget e k = some v → tget (fetch_full_text_for_entry net dir e).1 k = some v) ∧
    (∀ k v, tget (fetch_full_text_for_entry net dir e).1 k = some v →
      tget e k = some v ∨ k ∈ specialKeys) ∧
    (tget (fetch_full_text_for_entry net dir e).1 "fulltext_status").isSome = true ∧
    (tget (fetch_full_text_for_entry net dir e).1 "full_text").isSome = true := by
  refine ⟨?_, ?_, (fetch_entry_out net dir e).1, (fetch_entry_out net dir e).2⟩
  · intro k v hv
    have hk : k ∉ specialKeys := by
      intro hc
      rw [h k hc] at hv
      exact Option.noConfusion hv
    rw [fetch_entry_frame net dir e k hk]
    exact hv
  · intro k v hv
    by_cases hk : k ∈ specialKeys
    · exact Or.inr hk
    · rw [fetch_entry_frame net dir e k hk] at hv
      exact Or.inl hv

/-- Witness for C9: a record carrying only `title` keeps it through the
stage. -/
theorem C9_fulltext_adds_only_witness :
    tget (fetch_full_text_for_entry netFail "data/p1/fulltext" [("title", "T")]).1 "title" =
      some "T" :=
  (C9_fulltext_adds_only netFail "data/p1/fulltext" [("title", "T")] (by decide)).1
    "title" "T" (by decide)

/-- An oracle on which the Unpaywall lookup finds and downloads an OA
PDF. -/
def netOA : Net :=
  ⟨fun _ => false, fun _ => some "http://oa/x.pdf", fun _ => false,
    fun _ => "PDFTEXT", fun _ => "", fun _ => "h"⟩

/-- A record with only a DOI, used for the C9 counterexample. -/
def entC9 : TEntry := [("doi", "10.1/x")]

/-- Counterexample to C9 as stated: when the open-access lookup succeeds
the stage also adds `fulltext_pdf_url` (full_text_fetcher.py line 153), a
key outside the four listed by the claim. -/
theorem C9_counterexample :
    tget (fetch_full_text_for_entry netOA "data/p1/fulltext" entC9).1 "fulltext_pdf_url" =
        some "http://oa/x.pdf" ∧
      "fulltext_pdf_url" ∉ ["fulltext_path", "fulltext_status", "fulltext_type", "full_text"] ∧
      tget entC9 "fulltext_pdf_url" = none := by
  refine ⟨by decide, by decide, by decide⟩

/-! ### C3: the deduplication identifier, claim side -/

/-- The claim's priority list: each entry is the field value paired with
whether the claim says the value is URL-normalised (`pdf_url` and `link`). -/
def idFields (e : DEntry) : List (String × Bool) :=
  [(e.doi, false), (e.pmid, false), (e.paperId, false),
   (e.pdf_url, true), (e.id, false), (e.link, true)]

/-- The identifier as the amended claim words it: the value of the first
non-empty field in the strict order doi, pmid, paperId, pdf_url, id,
link; when the winning field is pdf_url or link the value is first
normalised by deleting every occurrence of `http://` and `https://` and
replacing every `/` by `_`. -/
def identifierClaim (e : DEntry) : Option String :=
  ((idFields e).find? (fun p => decide (p.1 ≠ ""))).map
    (fun p => if p.2 then normalizeUrl p.1 else p.1)

/-- The normalisation as the original claim words it: strip a leading
`http://` or `https://` scheme, then replace every `/` with `_`. -/
def normalizeClaimOrig (v : String) : String :=
  let l := v.toList
  let l2 :=
    if ("http://".toList).isPrefixOf l then l.drop 7
    else if ("https://".toList).isPrefixOf l then l.drop 8
    else l
  pyReplace (String.mk l2) "/" "_"

/-- The identifier as the original claim words it. -/
def identifierClaimOrig (e : DEntry) : Option String :=
  ((idFields e).find? (fun p => decide (p.1 ≠ ""))).map
    (fun p => if p.2 then normalizeClaimOrig p.1 else p.1)

/-- C3 (amended): for every record the deduplication identifier computed
by the source equals the first non-empty field in the strict order doi,
pmid, paperId, pdf_url, id, link, with a winning pdf_url or link value
normalised by deleting every occurrence of `http://` and `https://` and
replacing every `/` with `_` before being hashed. -/
theorem C3_identifier_priority (e : DEntry) : identifier e = identifierClaim e := by
  rw [identifier, identifierClaim, idFields]
  by_cases h1 : e.doi = "" <;> by_cases h2 : e.pmid = "" <;>
    by_cases h3 : e.paperId = "" <;> by_cases h4 : e.pdf_url = "" <;>
    by_cases h5 : e.id = "" <;> by_cases h6 : e.link = "" <;>
    simp [List.find?, h1, h2, h3, h4, h5, h6]

/-- The record of the C3 counterexample: a pdf_url containing a second
`http://` in its query string. -/
def entC3 : DEntry := { pdf_url := "http://a/b?u=http://c/d" }

/-- Counterexample to C3 as stated: the source deletes every occurrence
of `http://`/`https://` (Python `str.replace` replaces all occurrences),
not just a leading scheme, so on a URL embedding a second URL the two
computations differ. -/
theorem C3_counterexample :
    identifier entC3 ≠ identifierClaimOrig entC3 ∧
      identifier entC3 = some "a_b?u=c_d" ∧
      identifierClaimOrig entC3 = some "a_b?u=http:__c_d" := by
  refine ⟨by decide, by decide, by decide⟩

/-! ### Ingestion sanitizer (src/ingest.py, `sanitize_metadata`) -/

/-- A metadata record at the ingestion boundary: the fields
`sanitize_metadata` touches, plus an untouched `extra` assoc list for the
rest.  `none` encodes an absent key; the source's `isinstance` guards for
non-string/non-list values are identities in this typed model. -/
structure IEntry where
  id : Option String := none
  link : Option String := none
  title : Option String := none
  authors : List String := []
  summary : Option String := none
  extra : List (String × String) := []
  deriving DecidableEq

/-- The character class `[a-zA-Z0-9_.-]` of ingest.py line 42. -/
def allowedChar (c : Char) : Bool :=
  c.isAlphanum || c == '_' || c == '.' || c == '-'

/-- One step of `re.sub(r'[^a-zA-Z0-9_.-]', '_', ...)`: a character
outside the class becomes an underscore. -/
def sanitizeChar (c : Char) : Char :=
  if allowedChar c then c else '_'

/-- `re.sub(r'[^a-zA-Z0-9_.-]', '_', str(entry_id))`: substitution is
per character, so the result has the same length as the input. -/
def sanitizeId (s : String) : String :=
  String.mk (s.toList.map sanitizeChar)

/-- Python `str.isprintable`, faithful on ASCII (control characters and
DEL are not printable, everything from space upward is); the claims do
not depend on non-ASCII categories. -/
def isPrintableChar (c : Char) : Bool :=
  32 ≤ c.toNat && c.toNat != 127

/-- `''.join(c for c in entry[key] if c.isprintable())` (ingest.py line
57). -/
def stripUnprintable (s : String) : String :=
  String.mk (s.toList.filter isPrintableChar)

/-- Lines 45-47 of ingest.py: a falsy or non-string title becomes
"No Title Provided". -/
def fixTitle (t : Option String) : String :=
  match t with
  | some s => if s != "" then s else "No Title Provided"
  | none => "No Title Provided"

/-- The mutations `sanitize_metadata` performs on a kept entry whose
resolved `entry_id` is `v`: set the sanitized id, default the title, and
strip non-printable characters from title and summary. -/
def sanitizeApply (e : IEntry) (v : String) : IEntry :=
  { e with
    id := some (sanitizeId v),
    title := some (stripUnprintable (fixTitle e.title)),
    summary := e.summary.map stripUnprintable }

/-- `sanitize_metadata` (ingest.py lines 21-59): `entry_id =
entry.get('id') or entry.get('link')` — Python `or` takes the first
truthy operand — and the entry is discarded when both are falsy. -/
def sanitize_metadata (e : IEntry) : Option IEntry :=
  if truthyS e.id then some (sanitizeApply e (e.id.getD ""))
  else if truthyS e.link then some (sanitizeApply e (e.link.getD ""))
  else none

/-- Line 140 of ingest.py: the sanitizer is applied to the loaded
records, dropping the invalid ones, before any ingestion stage runs. -/
def ingestSanitize (l : List IEntry) : List IEntry :=
  l.filterMap sanitize_metadata

theorem sanitizeId_allowed (v : String) : (sanitizeId v).toList.all allowedChar = true := by
  rw [sanitizeId]
  have : (v.toList.map sanitizeChar).all allowedChar = true := by
    rw [List.all_eq_true]
    intro c hc
    obtain ⟨c0, _, rfl⟩ := List.mem_map.mp hc
    rw [sanitizeChar]
    by_cases h : allowedChar c0 = true
    · rw [if_pos h]
      exact h
    · rw [if_neg h]
      decide
  exact this

theorem sanitizeId_ne_empty (v : String) (h : v ≠ "") : sanitizeId v ≠ "" := by
  intro hc
  apply h
  have hd : v.toList.map sanitizeChar = [] := congrArg String.data hc
  have hv : v.toList = [] := List.map_eq_nil_iff.mp hd
  cases v with
  | mk d =>
    cases hv
    rfl

theorem truthyS_getD (o : Option String) (h : truthyS o = true) : o.getD "" ≠ "" := by
  cases o with
  | none => exact absurd h (by decide)
  | some v =>
    intro hc
    rw [Option.getD_some] at hc
    subst hc
    exact absurd h (by decide)

/-- C8 (amended): every record surviving the sanitization that opens the
ingestion stage has an id that is non-empty and consists only of
characters in `[A-Za-z0-9_.-]`, and a record is discarded by that
sanitization exactly when both its `id` and its `link` are falsy; this
filtering runs at the start of ingestion, not before the earlier
deduplication, semantic-filter, or full-text stages. -/
theorem C8_sanitized_id_at_ingestion :
    (∀ l : List IEntry, ∀ e2 ∈ ingestSanitize l,
      ∃ s, e2.id = some s ∧ s ≠ "" ∧ s.toList.all allowedChar = true) ∧
    (∀ e : IEntry, sanitize_metadata e = none ↔
      (truthyS e.id = false ∧ truthyS e.link = false)) := by
  constructor
  · intro l e2 he2
    rw [ingestSanitize] at he2
    obtain ⟨e, _, hse⟩ := List.mem_filterMap.mp he2
    rw [sanitize_metadata] at hse
    by_cases hid : truthyS e.id = true
    · rw [if_pos hid] at hse
      have hv := truthyS_getD e.id hid
      obtain rfl := Option.some_inj.mp hse
      exact ⟨sanitizeId (e.id.getD ""), rfl, sanitizeId_ne_empty _ hv, sanitizeId_allowed _⟩
    · rw [if_neg hid] at hse
      by_cases hl : truthyS e.link = true
      · rw [if_pos hl] at hse
        have hv := truthyS_getD e.link hl
        obtain rfl := Option.some_inj.mp hse
        exact ⟨sanitizeId (e.link.getD ""), rfl, sanitizeId_ne_empty _ hv, sanitizeId_allowed _⟩
      · rw [if_neg hl] at hse
        exact Option.noConfusion hse
  · intro e
    rw [sanitize_metadata]
    by_cases hid : truthyS e.id = true
    · rw [if_pos hid]
      constructor
      · intro hc
        exact Option.noConfusion hc
      · rintro ⟨h1, _⟩
        rw [hid] at h1
        exact Bool.noConfusion h1
    · rw [if_neg hid]
      by_cases hl : truthyS e.link = true
      · rw [if_pos hl]
        constructor
        · intro hc
          exact Option.noConfusion hc
        · rintro ⟨_, h2⟩
          rw [hl] at h2
          exact Bool.noConfusion h2
      · rw [if_neg hl]
        constructor
        · intro _
          exact ⟨Bool.not_eq_true _ ▸ hid, Bool.not_eq_true _ ▸ hl⟩
        · intro _
          rfl

/-- A record whose id needs character sanitization. -/
def entC8in : IEntry := { id := some "a/b", title := some "T1" }

/-- Its sanitized form. -/
def entC8out : IEntry := { id := some "a_b", title := some "T1" }

/-- Witness for C8: the sanitized record's id is non-empty and within the
allowed character class. -/
theorem C8_sanitized_id_at_ingestion_witness :
    ∃ s, entC8out.id = some s ∧ s ≠ "" ∧ s.toList.all allowedChar = true :=
  C8_sanitized_id_at_ingestion.1 [entC8in] entC8out (by decide)

/-- Counterexample to C8 as stated: a record with no id and no link (only
a DOI) is kept by the deduplication stage and flows on to the later
stages — no discard happens "before any stage"; the sanitizer that would
discard it runs only at ingestion. -/
theorem C8_counterexample :
    raT1.id = "" ∧ raT1.link = "" ∧
      deduplicate_metadata hashLen [⟨[some [raT1]]⟩] = [raT1] ∧
      sanitize_metadata { id := none, link := none, title := some "T1" } = none := by
  exact ⟨rfl, rfl, by decide, by decide⟩
